import Mathlib

/-!
Verification of the client-side recording/upload pipeline of
`src/frontend/App.js` (the `HomeScreen` component).

The component's React state is embedded as a structure `PipelineState`;
each handler (`startRecording`, `stopRecording`, `processAudioQueue`,
`transcribeAudio`/`analyzeAudio` outcomes, `clearRecordings`) becomes a
pure state transformer.  The event loop (button presses, the 6-second
rollover interval, the queue-trigger `useEffect`) is modelled as a step
function `step : Event → PipelineState → Option PipelineState` returning
`none` when the event's guard does not hold, and reachability as the
reflexive-transitive closure of `step` from the initial render.

Recording handles and segment URIs are identified with natural numbers:
`Audio.Recording.createAsync` hands out a fresh handle, and the URI
obtained from `recording.getURI()` at stop time is identified with that
handle's number (each finished recording has its own file).

Remote-call results are `Option String`: `transcribeAudio` returns
`response.data.transcription` on success and `null` on a caught network
error, likewise `analyzeAudio` with `response.data.analysis`.  The JS
truthiness test `if (transcription)` is `jsTruthy` (`null`/`undefined`
and the empty string are falsy).

Device errors on `stopAndUnloadAsync`/`createAsync` are outside the
model: every modelled device call succeeds (the spec's DeviceError
taxonomy treats those failures separately, as logged-and-lost).

Ghost fields (not present in the JS state, used only to state
properties): `activeDevice` (device-level list of live recording
handles), `deleteAttempts`/`deleteFailures` (deletions tried/failed),
`enqueuedSegs` (history of every segment ever pushed onto the queue),
`displayedSegs` (for each record currently in `transcriptions`, in
order, the segment that produced it), `nextId` (fresh-handle counter).
-/

/-- A Display List record, `{text: transcription, analysis: analysisResult}`
as appended by `processAudioQueue` (App.js lines 224-229). -/
structure TranscriptionRecord where
  text : String
  analysis : Option String
deriving DecidableEq, Repr

/-- The React state of `HomeScreen` plus ghost fields.  `recording`,
`isRecording`, `transcriptions`, `audioQueue`, `isProcessing` are the five
`useState` hooks (App.js lines 126-130).  `inFlight` models the local
variables `currentAudio`/`remainingQueue` captured by the destructuring
`const [currentAudio, ...remainingQueue] = audioQueue` for the duration of
an in-flight `processAudioQueue` run (none when the processor is idle). -/
structure PipelineState where
  recording : Option Nat
  isRecording : Bool
  transcriptions : List TranscriptionRecord
  audioQueue : List Nat
  isProcessing : Bool
  inFlight : Option (Nat × List Nat)
  activeDevice : List Nat
  nextId : Nat
  deleteAttempts : List Nat
  deleteFailures : List Nat
  enqueuedSegs : List Nat
  displayedSegs : List Nat
deriving DecidableEq, Repr

/-- The state at first render: every hook at its `useState` initial value. -/
def initState : PipelineState :=
  { recording := none
    isRecording := false
    transcriptions := []
    audioQueue := []
    isProcessing := false
    inFlight := none
    activeDevice := []
    nextId := 0
    deleteAttempts := []
    deleteFailures := []
    enqueuedSegs := []
    displayedSegs := [] }

/-- JS truthiness of a remote-call result: `null`/`undefined` and the empty
string are falsy, used by the guard `if (transcription)` (App.js line 224). -/
def jsTruthy : Option String → Bool
  | none => false
  | some t => !(t == "")

/-- The permission-granted path of `startRecording` (App.js lines 152-187):
`Audio.Recording.createAsync` allocates a fresh device recording, then
`setRecording(recording); setIsRecording(true)`.  The source performs no
check of `recording` or `isRecording` before creating the new recording. -/
def startRecording (s : PipelineState) : PipelineState :=
  { s with
      activeDevice := s.nextId :: s.activeDevice
      recording := some s.nextId
      isRecording := true
      nextId := s.nextId + 1 }

/-- The permission-denied path of `startRecording`: the `granted` branch is
skipped, nothing changes (a log only). -/
def startRecordingDenied (s : PipelineState) : PipelineState := s

/-- The function `stopRecording` (App.js lines 189-205), device call
succeeding: when a recording is held, `stopAndUnloadAsync` releases the
device recording, `getURI()` yields its file, the queue is extended at the
tail via the functional update `setAudioQueue((prevQueue) => [...prevQueue,
fileUri])`, and `setRecording(null)` clears the handle.  When `recording`
is null the body's `if` guard fails and nothing happens. -/
def stopRecording (s : PipelineState) : PipelineState :=
  match s.recording with
  | none => s
  | some h =>
      { s with
          activeDevice := s.activeDevice.erase h
          audioQueue := s.audioQueue ++ [h]
          enqueuedSegs := s.enqueuedSegs ++ [h]
          recording := none }

/-- The function `clearRecordings` (App.js lines 287-289):
`setTranscriptions([])` and nothing else.  The ghost mirror
`displayedSegs` is reset alongside so it keeps describing exactly the
records currently displayed. -/
def clearRecordings (s : PipelineState) : PipelineState :=
  { s with transcriptions := [], displayedSegs := [] }

/-- The tail of `processAudioQueue` after both remote calls settle, for an
in-flight run that captured `(cur, rem)` (App.js lines 215-240):
`tr`/`an` are the settled results of `transcribeAudio`/`analyzeAudio`
(null on a caught network error), `raisedEx` is whether the `try` block
raised before reaching the append, `deleteOk` is whether
`FileSystem.deleteAsync` succeeded.  The append is guarded by
`if (transcription)`; the `finally` block always attempts the deletion
(failure only logged), then runs `setAudioQueue(remainingQueue)` — the
snapshot tail, not a functional update — and `setIsProcessing(false)`. -/
def finishProcessing (tr an : Option String) (raisedEx deleteOk : Bool)
    (cur : Nat) (rem : List Nat) (s : PipelineState) : PipelineState :=
  let s1 :=
    if raisedEx then s
    else if jsTruthy tr then
      { s with
          transcriptions := s.transcriptions ++ [⟨tr.getD "", an⟩]
          displayedSegs := s.displayedSegs ++ [cur] }
    else s
  { s1 with
      deleteAttempts := s1.deleteAttempts ++ [cur]
      deleteFailures :=
        if deleteOk then s1.deleteFailures else s1.deleteFailures ++ [cur]
      audioQueue := rem
      isProcessing := false
      inFlight := none }

/-- Events of the single-threaded event loop driving `HomeScreen`. -/
inductive Event where
  /-- User presses the toggle button; if idle this runs `startRecording`
  with permission granted, if recording it runs `setIsRecording(false)`
  then `stopRecording` (App.js lines 319-326). -/
  | pressButton : Event
  /-- User presses the toggle button while idle and `requestPermissionsAsync`
  is denied: `startRecording` logs and changes nothing. -/
  | pressButtonDenied : Event
  /-- The 6-second rollover interval fires (App.js lines 133-144): armed only
  while `isRecording`, its callback checks `if (recording)` then runs
  `stopRecording` followed by `startRecording` (granted). -/
  | timerFire : Event
  /-- The rollover interval fires but the restart's permission request is
  denied: the segment is stopped and enqueued, no new recording starts. -/
  | timerFireDenied : Event
  /-- The queue-trigger `useEffect` (App.js lines 146-150) fires
  `processAudioQueue`, which passes its guard
  `if (audioQueue.length === 0 || isProcessing) return`, runs
  `setIsProcessing(true)` and destructures `[currentAudio, ...remainingQueue]`,
  reaching its first suspension point with the two remote calls pending. -/
  | beginProcess : Event
  /-- The in-flight `processAudioQueue` run resumes and completes with remote
  results `tr`, `an`, exception flag `raisedEx`, deletion outcome `deleteOk`. -/
  | completeProcess (tr an : Option String) (raisedEx deleteOk : Bool) : Event
  /-- User presses the clear button, running `clearRecordings`. -/
  | clearList : Event
deriving DecidableEq, Repr

/-- One step of the event loop: `none` when the event's guard fails in the
given state (the event cannot occur there). -/
def step : Event → PipelineState → Option PipelineState
  | .pressButton, s =>
      if s.isRecording then some (stopRecording { s with isRecording := false })
      else some (startRecording s)
  | .pressButtonDenied, s =>
      if s.isRecording then none else some (startRecordingDenied s)
  | .timerFire, s =>
      if s.isRecording && s.recording.isSome then
        some (startRecording (stopRecording s))
      else none
  | .timerFireDenied, s =>
      if s.isRecording && s.recording.isSome then
        some (startRecordingDenied (stopRecording s))
      else none
  | .beginProcess, s =>
      match s.audioQueue, s.isProcessing with
      | cur :: rem, false =>
          some { s with isProcessing := true, inFlight := some (cur, rem) }
      | _, _ => none
  | .completeProcess tr an raisedEx deleteOk, s =>
      match s.inFlight with
      | some (cur, rem) => some (finishProcessing tr an raisedEx deleteOk cur rem s)
      | none => none
  | .clearList, s => some (clearRecordings s)

/-- Run a list of events from a state, failing if any guard fails. -/
def run (es : List Event) (s : PipelineState) : Option PipelineState :=
  es.foldl (fun acc e => acc.bind (step e)) (some s)

/-- States reachable from the initial render by the event loop. -/
inductive Reachable : PipelineState → Prop
  | init : Reachable initState
  | next {s s' : PipelineState} (e : Event) :
      Reachable s → step e s = some s' → Reachable s'

/-- The state after the user starts recording from the initial render
(recording handle 0 is live). -/
def demoRecStart : PipelineState := startRecording initState

/-- The state after the 6-second rollover fires once: segment 0 is
enqueued and recording handle 1 is live. -/
def demoRoll : PipelineState := startRecording (stopRecording demoRecStart)

/-- The state after the queue trigger starts processing segment 0:
the processor is busy with in-flight snapshot `(0, [])`. -/
def demoBegin : PipelineState :=
  { demoRoll with isProcessing := true, inFlight := some (0, []) }

/-- The state after the user presses stop while segment 0 is still being
processed: segment 1 is enqueued during the flight. -/
def demoStop : PipelineState := stopRecording { demoBegin with isRecording := false }

/-- The state after the in-flight run over segment 0 completes with
transcription "hi" and analysis "ok". -/
def demoDone : PipelineState :=
  finishProcessing (some "hi") (some "ok") false true 0 [] demoStop

/-- Order of the remote-call events inside one `processAudioQueue` run as
the source is written (App.js lines 216-222): `const transcriptionPromise
= await transcribeAudio(currentAudio)` settles the transcribe request
before the next statement `const analysisPromise = await
analyzeAudio(currentAudio)` even starts the analyze request; the
`Promise.all` then joins two already-settled values. -/
inductive RemoteEv where
  | trStart : RemoteEv
  | trSettle : RemoteEv
  | anStart : RemoteEv
  | anSettle : RemoteEv
deriving DecidableEq, Repr

/-- The remote-call event trace of one `processAudioQueue` run, read off
the statement order of the source. -/
def processAudioCallTrace : List RemoteEv :=
  [RemoteEv.trStart, RemoteEv.trSettle, RemoteEv.anStart, RemoteEv.anSettle]

/-- Whether, after the first `i` events of the trace, the transcribe and
the analyze request are both open (started and not yet settled). -/
def bothInFlightAt (t : List RemoteEv) (i : Nat) : Bool :=
  let pre := t.take i
  (pre.contains RemoteEv.trStart && !pre.contains RemoteEv.trSettle) &&
    (pre.contains RemoteEv.anStart && !pre.contains RemoteEv.anSettle)

/-- Whether at any instant of the trace both remote requests are open. -/
def everBothInFlight (t : List RemoteEv) : Bool :=
  (List.range (t.length + 1)).any (bothInFlightAt t)

/-- The event list of the lost-enqueue scenario: record, roll over once
(enqueuing segment 0), start processing segment 0, stop the recorder
while that run is in flight (enqueuing segment 1), then let the run
complete successfully. -/
def c2Events : List Event :=
  [Event.pressButton, Event.timerFire, Event.beginProcess, Event.pressButton,
   Event.completeProcess (some "hi") (some "ok") false true]

/-- The inductive invariant of the pipeline.  `proc_inflight` ties the busy
flag to the in-flight run; `device` says the device-level recordings are
exactly the held handle; `idle_norec` says the stop branch of the button
always cleared the handle; `inflight_queue` relates the in-flight snapshot
to the live queue (anything beyond the snapshot was appended during the
flight); `fifo` says the displayed segments followed by the pending queue
form an order-preserving subsequence of the enqueue history; `len_eq` ties
the ghost `displayedSegs` to the Display List; the remaining fields give
freshness and uniqueness of segment identifiers. -/
structure PipeInv (s : PipelineState) : Prop where
  proc_inflight : s.isProcessing = s.inFlight.isSome
  device : s.activeDevice = s.recording.toList
  idle_norec : s.isRecording = false → s.recording = none
  inflight_queue : ∀ cur rem, s.inFlight = some (cur, rem) →
      cur ∉ rem ∧ ∃ app, s.audioQueue = cur :: rem ++ app
  fifo : (s.displayedSegs ++ s.audioQueue).Sublist s.enqueuedSegs
  len_eq : s.transcriptions.length = s.displayedSegs.length
  enq_lt : ∀ x ∈ s.enqueuedSegs, x < s.nextId
  rec_fresh : ∀ h, s.recording = some h → h < s.nextId ∧ h ∉ s.enqueuedSegs
  enq_nodup : s.enqueuedSegs.Nodup

theorem inv_init : PipeInv initState := by
  constructor <;> simp [initState]

theorem stopRecording_recording (s : PipelineState) :
    (stopRecording s).recording = none := by
  unfold stopRecording
  cases h : s.recording <;> simp [h]

theorem inv_stop_any (s : PipelineState) (b : Bool) (hinv : PipeInv s) :
    PipeInv (stopRecording { s with isRecording := b }) := by
  cases hrec : s.recording with
  | none =>
      unfold stopRecording
      simp only [hrec]
      exact {
        proc_inflight := hinv.proc_inflight
        device := by
          have := hinv.device
          rw [hrec] at this
          exact this
        idle_norec := fun _ => rfl
        inflight_queue := hinv.inflight_queue
        fifo := hinv.fifo
        len_eq := hinv.len_eq
        enq_lt := hinv.enq_lt
        rec_fresh := fun h hh => by cases hh
        enq_nodup := hinv.enq_nodup }
  | some h =>
      have hfresh := hinv.rec_fresh h hrec
      unfold stopRecording
      simp only [hrec]
      exact {
        proc_inflight := hinv.proc_inflight
        device := by
          have := hinv.device
          rw [hrec] at this
          rw [this]
          simp [Option.toList]
        idle_norec := fun _ => rfl
        inflight_queue := by
          intro cur rem hif
          obtain ⟨hne, app, happ⟩ := hinv.inflight_queue cur rem hif
          exact ⟨hne, app ++ [h], by simp [happ]⟩
        fifo := by
          have := List.Sublist.append hinv.fifo (List.Sublist.refl [h])
          simpa [List.append_assoc] using this
        len_eq := hinv.len_eq
        enq_lt := by
          intro x hx
          rcases List.mem_append.mp hx with hx | hx
          · exact hinv.enq_lt x hx
          · simp at hx; subst hx; exact hfresh.1
        rec_fresh := by intro h' hh'; cases hh'
        enq_nodup :=
          hinv.enq_nodup.append (List.nodup_singleton h)
            (List.disjoint_singleton.2 hfresh.2) }

theorem inv_start (s : PipelineState) (hrec : s.recording = none) (hinv : PipeInv s) :
    PipeInv (startRecording s) := by
  refine {
    proc_inflight := hinv.proc_inflight
    device := ?_
    idle_norec := by intro hfalse; cases hfalse
    inflight_queue := hinv.inflight_queue
    fifo := hinv.fifo
    len_eq := hinv.len_eq
    enq_lt := ?_
    rec_fresh := ?_
    enq_nodup := hinv.enq_nodup }
  · rw [show (startRecording s).activeDevice = s.nextId :: s.activeDevice from rfl,
      hinv.device, hrec]
    rfl
  · intro x hx
    exact Nat.lt_succ_of_lt (hinv.enq_lt x hx)
  · intro h hh
    have : h = s.nextId := by
      have hh' : some s.nextId = some h := hh
      exact (Option.some.inj hh').symm
    subst this
    refine ⟨Nat.lt_succ_self _, fun hmem => ?_⟩
    exact absurd (hinv.enq_lt _ hmem) (Nat.lt_irrefl _)

theorem inv_begin (s : PipelineState) (cur : Nat) (rem : List Nat)
    (hq : s.audioQueue = cur :: rem) (hp : s.isProcessing = false)
    (hinv : PipeInv s) :
    PipeInv { s with isProcessing := true, inFlight := some (cur, rem) } := by
  have hqsub : s.audioQueue.Sublist s.enqueuedSegs :=
    (List.sublist_append_right s.displayedSegs s.audioQueue).trans hinv.fifo
  have hqnodup : s.audioQueue.Nodup := hinv.enq_nodup.sublist hqsub
  exact {
    proc_inflight := rfl
    device := hinv.device
    idle_norec := hinv.idle_norec
    inflight_queue := by
      intro cur' rem' hif
      have hc := Option.some.inj hif
      have hc1 : cur = cur' := congrArg Prod.fst hc
      have hc2 : rem = rem' := congrArg Prod.snd hc
      subst hc1
      subst hc2
      constructor
      · have := hq ▸ hqnodup
        exact (List.nodup_cons.mp this).1
      · exact ⟨[], by simp [hq]⟩
    fifo := hinv.fifo
    len_eq := hinv.len_eq
    enq_lt := hinv.enq_lt
    rec_fresh := hinv.rec_fresh
    enq_nodup := hinv.enq_nodup }

theorem inv_finish (s : PipelineState) (tr an : Option String)
    (raisedEx deleteOk : Bool) (cur : Nat) (rem : List Nat)
    (hif : s.inFlight = some (cur, rem)) (hinv : PipeInv s) :
    PipeInv (finishProcessing tr an raisedEx deleteOk cur rem s) := by
  obtain ⟨hcr, app, happ⟩ := hinv.inflight_queue cur rem hif
  have key : (s.displayedSegs ++ (cur :: rem ++ app)).Sublist s.enqueuedSegs := by
    rw [← happ]; exact hinv.fifo
  unfold finishProcessing
  by_cases hrx : raisedEx = true
  · simp only [hrx, if_pos]
    exact {
      proc_inflight := rfl
      device := hinv.device
      idle_norec := hinv.idle_norec
      inflight_queue := by intro cur' rem' hif'; cases hif'
      fifo := by
        have h1 : (s.displayedSegs ++ rem).Sublist
            (s.displayedSegs ++ (cur :: rem ++ app)) := by
          refine List.Sublist.append_left ?_ _
          exact (List.sublist_cons_self cur rem).trans
            (List.sublist_append_left (cur :: rem) app)
        exact h1.trans key
      len_eq := hinv.len_eq
      enq_lt := hinv.enq_lt
      rec_fresh := hinv.rec_fresh
      enq_nodup := hinv.enq_nodup }
  · have hrx' : raisedEx = false := by
      cases raisedEx
      · rfl
      · exact absurd rfl hrx
    subst hrx'
    by_cases htr : jsTruthy tr = true
    · simp only [htr, if_true, if_false, Bool.false_eq_true]
      exact {
        proc_inflight := rfl
        device := hinv.device
        idle_norec := hinv.idle_norec
        inflight_queue := by intro cur' rem' hif'; cases hif'
        fifo := by
          have h1 : ((s.displayedSegs ++ [cur]) ++ rem).Sublist
              (s.displayedSegs ++ (cur :: rem ++ app)) := by
            rw [List.append_assoc]
            refine List.Sublist.append_left ?_ _
            have : ([cur] ++ rem).Sublist ((cur :: rem) ++ app) :=
              List.sublist_append_left (cur :: rem) app
            simpa using this
          exact h1.trans key
        len_eq := by simp [hinv.len_eq]
        enq_lt := hinv.enq_lt
        rec_fresh := hinv.rec_fresh
        enq_nodup := hinv.enq_nodup }
    · have htr' : jsTruthy tr = false := by
        cases h : jsTruthy tr
        · rfl
        · exact absurd h htr
      simp only [htr', if_false, Bool.false_eq_true]
      exact {
        proc_inflight := rfl
        device := hinv.device
        idle_norec := hinv.idle_norec
        inflight_queue := by intro cur' rem' hif'; cases hif'
        fifo := by
          have h1 : (s.displayedSegs ++ rem).Sublist
              (s.displayedSegs ++ (cur :: rem ++ app)) := by
            refine List.Sublist.append_left ?_ _
            exact (List.sublist_cons_self cur rem).trans
              (List.sublist_append_left (cur :: rem) app)
          exact h1.trans key
        len_eq := hinv.len_eq
        enq_lt := hinv.enq_lt
        rec_fresh := hinv.rec_fresh
        enq_nodup := hinv.enq_nodup }

theorem inv_clear (s : PipelineState) (hinv : PipeInv s) :
    PipeInv (clearRecordings s) := by
  exact {
    proc_inflight := hinv.proc_inflight
    device := hinv.device
    idle_norec := hinv.idle_norec
    inflight_queue := hinv.inflight_queue
    fifo := by
      have : s.audioQueue.Sublist (s.displayedSegs ++ s.audioQueue) :=
        List.sublist_append_right _ _
      simpa using this.trans hinv.fifo
    len_eq := rfl
    enq_lt := hinv.enq_lt
    rec_fresh := hinv.rec_fresh
    enq_nodup := hinv.enq_nodup }

theorem inv_reachable (s : PipelineState) (hs : Reachable s) : PipeInv s := by
  induction hs with
  | init => exact inv_init
  | next e hr hstep ih =>
      rename_i t t'
      cases e with
      | pressButton =>
          simp only [step] at hstep
          split at hstep
          · rename_i hrec
            cases Option.some.inj hstep
            exact inv_stop_any t false ih
          · rename_i hrec
            cases Option.some.inj hstep
            have hfalse : t.isRecording = false := by
              cases h : t.isRecording
              · rfl
              · exact absurd h hrec
            exact inv_start t (ih.idle_norec hfalse) ih
      | pressButtonDenied =>
          simp only [step] at hstep
          split at hstep
          · cases hstep
          · cases Option.some.inj hstep
            exact ih
      | timerFire =>
          simp only [step] at hstep
          split at hstep
          · cases Option.some.inj hstep
            have hstop : PipeInv (stopRecording t) := inv_stop_any t t.isRecording ih
            exact inv_start _ (stopRecording_recording t) hstop
          · cases hstep
      | timerFireDenied =>
          simp only [step] at hstep
          split at hstep
          · cases Option.some.inj hstep
            exact inv_stop_any t t.isRecording ih
          · cases hstep
      | beginProcess =>
          simp only [step] at hstep
          cases hq : t.audioQueue with
          | nil => rw [hq] at hstep; cases hp : t.isProcessing <;>
              rw [hp] at hstep <;> cases hstep
          | cons cur rem =>
              rw [hq] at hstep
              cases hp : t.isProcessing with
              | true => rw [hp] at hstep; cases hstep
              | false =>
                  rw [hp] at hstep
                  cases Option.some.inj hstep
                  rw [← hq]
                  exact inv_begin t cur rem hq hp ih
      | completeProcess tr an raisedEx deleteOk =>
          simp only [step] at hstep
          cases hif : t.inFlight with
          | none => rw [hif] at hstep; cases hstep
          | some p =>
              rw [hif] at hstep
              cases Option.some.inj hstep
              exact inv_finish t tr an raisedEx deleteOk p.1 p.2 (by rw [hif]) ih
      | clearList =>
          simp only [step] at hstep
          cases Option.some.inj hstep
          exact inv_clear t ih

theorem reachable_demoRecStart : Reachable demoRecStart :=
  Reachable.next Event.pressButton Reachable.init rfl

theorem reachable_demoRoll : Reachable demoRoll :=
  Reachable.next Event.timerFire reachable_demoRecStart rfl

theorem reachable_demoBegin : Reachable demoBegin :=
  Reachable.next Event.beginProcess reachable_demoRoll rfl

theorem reachable_demoStop : Reachable demoStop :=
  Reachable.next Event.pressButton reachable_demoBegin rfl

theorem reachable_demoDone : Reachable demoDone :=
  Reachable.next (Event.completeProcess (some "hi") (some "ok") false true)
    reachable_demoStop rfl

/-- C1: in every reachable state of the pipeline, for any arrival pattern
of segments, the busy flag `isProcessing` holds exactly while a segment is
in flight, and while one is in flight the queue-trigger guard of
`processAudioQueue` (queue non-empty and processor idle) is disabled, so a
second run cannot begin until the first has marked the processor idle
again.  `beginProcess` sets the busy flag atomically before the remote
calls are issued, mirroring `setIsProcessing(true)` preceding the first
await of the source. -/
theorem C1_single_flight (s : PipelineState) (hs : Reachable s) :
    s.isProcessing = s.inFlight.isSome ∧
      (s.inFlight.isSome = true → step Event.beginProcess s = none) := by
  have hinv := inv_reachable s hs
  refine ⟨hinv.proc_inflight, ?_⟩
  intro hif
  have hp : s.isProcessing = true := by rw [hinv.proc_inflight]; exact hif
  cases hq : s.audioQueue with
  | nil => cases hp2 : s.isProcessing <;> simp [step, hq, hp2]
  | cons c r => simp [step, hq, hp]

/-- Witness for C1 at the concrete reachable state `demoBegin`, where
segment 0 is in flight: the queue trigger cannot start a second run. -/
theorem C1_single_flight_witness :
    step Event.beginProcess demoBegin = none :=
  (C1_single_flight demoBegin reachable_demoBegin).2 rfl

/-- C4 counterexample: `startRecording` contains no check of the active
handle.  Invoked at the reachable state `demoRecStart`, where recording
handle 0 is live, it is neither prevented nor rejected: it creates a second
live device recording (handle 1) and overwrites the held handle, leaving
both device recordings active. -/
theorem C4_start_unguarded :
    demoRecStart.recording = some 0 ∧
      (startRecording demoRecStart).activeDevice = [1, 0] ∧
      (startRecording demoRecStart).recording = some 1 ∧
      startRecording demoRecStart ≠ demoRecStart := by decide

/-- C4 amended: under the UI event discipline (button toggle and rollover
timer, every modelled device call succeeding), each start is preceded by a
completed stop, and every reachable state has at most one live device
recording. -/
theorem C4_single_session (s : PipelineState) (hs : Reachable s) :
    s.activeDevice.length ≤ 1 := by
  have hinv := inv_reachable s hs
  rw [hinv.device]
  cases s.recording <;> simp [Option.toList]

/-- Witness for C4 amended at the concrete reachable state `demoRoll`. -/
theorem C4_single_session_witness : demoRoll.activeDevice.length ≤ 1 :=
  C4_single_session demoRoll reachable_demoRoll

/-- C6: `stopRecording` with no active handle is a no-op; with an active
handle `h` (device call succeeding) it releases the device recording,
appends exactly the one segment reference at the tail of the upload queue,
clears the handle to null, and leaves the Display List, both flags and any
in-flight run unchanged. -/
theorem C6_stopRecording_spec (s : PipelineState) :
    (s.recording = none → stopRecording s = s) ∧
      (∀ h, s.recording = some h →
        (stopRecording s).audioQueue = s.audioQueue ++ [h] ∧
          (stopRecording s).recording = none ∧
          (stopRecording s).activeDevice = s.activeDevice.erase h ∧
          (stopRecording s).transcriptions = s.transcriptions ∧
          (stopRecording s).isProcessing = s.isProcessing ∧
          (stopRecording s).isRecording = s.isRecording ∧
          (stopRecording s).inFlight = s.inFlight) := by
  constructor
  · intro h
    unfold stopRecording
    rw [h]
  · intro h hh
    unfold stopRecording
    rw [hh]
    exact ⟨rfl, rfl, rfl, rfl, rfl, rfl, rfl⟩

/-- Witness for C6: the no-op case at the initial state and the active
case at `demoRecStart` (handle 0 live, segment 0 enqueued at the tail). -/
theorem C6_stopRecording_spec_witness :
    stopRecording initState = initState ∧
      (stopRecording demoRecStart).audioQueue = demoRecStart.audioQueue ++ [0] ∧
      (stopRecording demoRecStart).recording = none :=
  ⟨(C6_stopRecording_spec initState).1 rfl,
    ((C6_stopRecording_spec demoRecStart).2 0 rfl).1,
    ((C6_stopRecording_spec demoRecStart).2 0 rfl).2.1⟩

/-- C3 counterexample: the transcribe call succeeds with the empty string
(`transcription` is `""`, not null) and the analyze call fails, yet no
record is appended — the guard `if (transcription)` tests truthiness, and
`""` is falsy.  The claim as stated would require the record
`{text: "", analysis: null}` to be appended. -/
theorem C3_empty_text_no_record :
    (step (Event.completeProcess (some "") none false true) demoBegin).map
        PipelineState.transcriptions = some [] ∧
      (step (Event.completeProcess (some "") none false true) demoBegin).map
          PipelineState.transcriptions ≠ some [⟨"", none⟩] := by decide

/-- C3 amended: for every in-flight segment, if the transcribe call fails
(null result) no record is appended even when the analyze call succeeds;
and if the transcribe call succeeds with a non-empty text `t` while the
analyze call fails, the record `{text: t, analysis: null}` is appended (an
empty-string transcription appends nothing, see the counterexample). -/
theorem C3_transcription_gate (s : PipelineState) (cur : Nat) (rem : List Nat)
    (hif : s.inFlight = some (cur, rem)) :
    (∀ (an : Option String) (deleteOk : Bool),
        (step (Event.completeProcess none an false deleteOk) s).map
            PipelineState.transcriptions = some s.transcriptions) ∧
      (∀ (t : String) (deleteOk : Bool), t ≠ "" →
        (step (Event.completeProcess (some t) none false deleteOk) s).map
            PipelineState.transcriptions
          = some (s.transcriptions ++ [⟨t, none⟩])) := by
  constructor
  · intro an deleteOk
    simp [step, hif, finishProcessing, jsTruthy]
  · intro t deleteOk ht
    simp [step, hif, finishProcessing, jsTruthy, ht]

/-- Witness for C3 amended at the concrete in-flight state `demoBegin`:
a failed transcribe with successful analyze appends nothing; a successful
transcribe "hello" with failed analyze appends `{text: "hello",
analysis: null}`. -/
theorem C3_transcription_gate_witness :
    (step (Event.completeProcess none (some "ok") false true) demoBegin).map
        PipelineState.transcriptions = some demoBegin.transcriptions ∧
      (step (Event.completeProcess (some "hello") none false true) demoBegin).map
          PipelineState.transcriptions
        = some (demoBegin.transcriptions ++ [⟨"hello", none⟩]) :=
  ⟨(C3_transcription_gate demoBegin 0 [] rfl).1 (some "ok") true,
    (C3_transcription_gate demoBegin 0 [] rfl).2 "hello" true (by decide)⟩

/-- C10: a successful transcribe response whose `transcription` field is
the empty string is present (`isSome`) but falsy, so the append guard
`if (transcription)` drops it: no Display List record is appended and the
successful analysis result "analysis text" is discarded with it. -/
theorem C10_empty_transcription_dropped :
    jsTruthy (some "") = false ∧
      (some "" : Option String).isSome = true ∧
      (step (Event.completeProcess (some "") (some "analysis text") false true)
            demoBegin).map
          PipelineState.transcriptions = some demoBegin.transcriptions := by decide

/-- C9: `clearRecordings` empties the Display List in every state and
changes nothing else: queue, busy flag, recording handle, recording flag,
in-flight snapshot and live device recordings are untouched; and an
in-flight run that completes after the clear with a truthy transcription
still appends its record. -/
theorem C9_clear_frame (s : PipelineState) :
    (clearRecordings s).transcriptions = [] ∧
      (clearRecordings s).audioQueue = s.audioQueue ∧
      (clearRecordings s).isProcessing = s.isProcessing ∧
      (clearRecordings s).recording = s.recording ∧
      (clearRecordings s).isRecording = s.isRecording ∧
      (clearRecordings s).inFlight = s.inFlight ∧
      (clearRecordings s).activeDevice = s.activeDevice ∧
      (∀ (tr an : Option String) (deleteOk : Bool) (cur : Nat) (rem : List Nat),
        jsTruthy tr = true →
          (finishProcessing tr an false deleteOk cur rem
              (clearRecordings s)).transcriptions = [⟨tr.getD "", an⟩]) := by
  refine ⟨rfl, rfl, rfl, rfl, rfl, rfl, rfl, ?_⟩
  intro tr an deleteOk cur rem htr
  simp [finishProcessing, clearRecordings, htr]

/-- Witness for C9 at the concrete in-flight state `demoBegin`: the clear
empties the list, leaves the queue and flags alone, and the run completing
afterwards with transcription "hi" still appends its record. -/
theorem C9_clear_frame_witness :
    (clearRecordings demoBegin).transcriptions = [] ∧
      (clearRecordings demoBegin).audioQueue = demoBegin.audioQueue ∧
      (clearRecordings demoBegin).inFlight = demoBegin.inFlight ∧
      (finishProcessing (some "hi") (some "ok") false true 0 []
          (clearRecordings demoBegin)).transcriptions = [⟨"hi", some "ok"⟩] :=
  ⟨(C9_clear_frame demoBegin).1, (C9_clear_frame demoBegin).2.1,
    (C9_clear_frame demoBegin).2.2.2.2.2.1,
    ((C9_clear_frame demoBegin).2.2.2.2.2.2.2 (some "hi") (some "ok") true 0 []
      (by decide))⟩

/-- C7: for every in-flight segment and every outcome (both calls settled
with any results, an exception raised in the try block, deletion failing),
the completion of `processAudioQueue` attempts the temporary-file deletion,
and even when deletion fails the segment is removed from the queue, the
in-flight snapshot is dropped and the processor is marked idle — cleanup
failure is never fatal and never stalls the queue. -/
theorem C7_cleanup_best_effort (s : PipelineState) (cur : Nat) (rem : List Nat)
    (tr an : Option String) (raisedEx deleteOk : Bool)
    (hif : s.inFlight = some (cur, rem)) :
    step (Event.completeProcess tr an raisedEx deleteOk) s
        = some (finishProcessing tr an raisedEx deleteOk cur rem s) ∧
      (finishProcessing tr an raisedEx deleteOk cur rem s).deleteAttempts
        = s.deleteAttempts ++ [cur] ∧
      (deleteOk = false →
        (finishProcessing tr an raisedEx deleteOk cur rem s).deleteFailures
          = s.deleteFailures ++ [cur]) ∧
      (finishProcessing tr an raisedEx deleteOk cur rem s).isProcessing = false ∧
      (finishProcessing tr an raisedEx deleteOk cur rem s).inFlight = none ∧
      (finishProcessing tr an raisedEx deleteOk cur rem s).audioQueue = rem ∧
      (cur ∉ rem →
        cur ∉ (finishProcessing tr an raisedEx deleteOk cur rem s).audioQueue) := by
  refine ⟨by simp [step, hif], ?_, ?_, ?_, ?_, ?_, ?_⟩ <;>
    cases raisedEx <;> cases htr : jsTruthy tr <;>
      simp [finishProcessing, htr]

/-- Witness for C7 at the concrete in-flight state `demoBegin` with the
worst outcome: an exception was raised and the deletion failed; the
deletion was still attempted, the failure recorded, the queue cleared of
segment 0 and the processor marked idle. -/
theorem C7_cleanup_best_effort_witness :
    (finishProcessing none none true false 0 [] demoBegin).deleteAttempts = [0] ∧
      (finishProcessing none none true false 0 [] demoBegin).deleteFailures = [0] ∧
      (finishProcessing none none true false 0 [] demoBegin).isProcessing = false ∧
      0 ∉ (finishProcessing none none true false 0 [] demoBegin).audioQueue := by
  have h := C7_cleanup_best_effort demoBegin 0 [] none none true false rfl
  exact ⟨h.2.1.trans (by decide), (h.2.2.1 rfl).trans (by decide),
    h.2.2.2.1, h.2.2.2.2.2.2 (by decide)⟩

/-- C5 (refuting the stated concurrency): the remote-call trace of one
`processAudioQueue` run, read off the source's statement order, never has
the transcribe and the analyze request in flight at the same instant — the
analyze request starts strictly after the transcribe request has settled,
because `transcribeAudio` is awaited at its call site before `analyzeAudio`
is invoked.  The variable names `transcriptionPromise`/`analysisPromise`
and the `Promise.all` join show the concurrent intent, but the two `await`
keywords at the call sites serialize the calls. -/
theorem C5_calls_sequential :
    everBothInFlight processAudioCallTrace = false ∧
      processAudioCallTrace.indexOf RemoteEv.trSettle
        < processAudioCallTrace.indexOf RemoteEv.anStart := by decide

/-- C2 (refuting frame preservation): running the lost-enqueue scenario
`c2Events` from the initial state ends with segment 1 recorded in the
enqueue history but absent from the final queue, the Display List and the
deletion attempts: the `finally` block's `setAudioQueue(remainingQueue)`
overwrote the queue with the snapshot tail captured when processing began,
discarding the segment `stopRecording` had appended during the flight.
The claim requires that segment still to be present in the queue. -/
theorem C2_inflight_enqueue_lost :
    run c2Events initState = some
      { recording := none
        isRecording := false
        transcriptions := [⟨"hi", some "ok"⟩]
        audioQueue := []
        isProcessing := false
        inFlight := none
        activeDevice := []
        nextId := 2
        deleteAttempts := [0]
        deleteFailures := []
        enqueuedSegs := [0, 1]
        displayedSegs := [0] } := by decide

/-- C8: in every reachable state, the ghost list `displayedSegs` — the
segment that produced each record currently in the Display List, in
display order — is an order-preserving subsequence of the enqueue history
`enqueuedSegs`, and it has exactly one entry per displayed record: if
segment A was enqueued before segment B and both produced a record, A's
record precedes B's in the Display List.  The join of the two remote calls
happens before the single append, so their relative completion timing
cannot reorder records. -/
theorem C8_fifo_display (s : PipelineState) (hs : Reachable s) :
    s.displayedSegs.Sublist s.enqueuedSegs ∧
      s.transcriptions.length = s.displayedSegs.length := by
  have hinv := inv_reachable s hs
  exact ⟨(List.sublist_append_left _ _).trans hinv.fifo, hinv.len_eq⟩

/-- Witness for C8 at the concrete reachable state `demoDone`, where
segment 0 has been displayed and segments 0 and 1 were enqueued. -/
theorem C8_fifo_display_witness :
    demoDone.displayedSegs.Sublist demoDone.enqueuedSegs ∧
      demoDone.transcriptions.length = demoDone.displayedSegs.length :=
  C8_fifo_display demoDone reachable_demoDone
